import Mathlib

/-!
Verification of the xinOS interrupt-descriptor-table subsystem
(`src/kernel/idt/idt.c`), shallowly embedded in Lean.

The C source defines a packed 8-byte `struct idt_entry`, a global table
`struct idt_entry idt[256]`, a table pointer record `struct idt_ptr idtp`,
the encoder `register_isr(void *isr, uint8_t index)`, the helper
`register_exceptions()`, and the initialization sequence `init_idt()`.

Machine integers are embedded as `Nat` with explicit `% 2^w` where the C
code truncates.  The byte-splitting of the handler pointer in
`register_isr` (reading the 32-bit little-endian pointer as four chars)
is embedded via `byteAt`.  The imperative initialization sequence is
embedded as a trace of steps (`Step`) acting on an explicit kernel state
(`KState`), in the exact textual order of `init_idt`.
-/

/-- Number of entries of the table: `struct idt_entry idt[256]`. -/
def IDT_ENTRIES : Nat := 256

/-- Size in bytes of one packed `struct idt_entry`:
`uint16_t offset_1; uint16_t selector; uint8_t zero; uint8_t type;
uint16_t offset_2;` with `__attribute__((packed))`, so 2+2+1+1+2 = 8. -/
def idt_entry_size : Nat := 2 + 2 + 1 + 1 + 2

/-- Modelled from the spec: `CODE_SEGMENT` comes from
`kernel/definitions.h`, which is not among the sources; the spec calls it
"an external constant identifying which code context handlers execute
under; supplied at build/config time".  Every claim only compares the
stored selector against this constant, so its concrete value is
irrelevant; we fix the conventional kernel code-segment selector. -/
def CODE_SEGMENT : Nat := 0x08

/-- One gate descriptor, `struct idt_entry` of the source.  Fields are the
source's fields in source order; each 16-bit field holds a value < 2^16
and each 8-bit field a value < 2^8 whenever written by the embedded code. -/
structure idt_entry where
  offset_1 : Nat -- offset bits 0..15
  selector : Nat -- a code segment selector in GDT or LDT
  zero : Nat     -- unused, set to 0
  type : Nat     -- type and attributes
  offset_2 : Nat -- offset bits 16..31
deriving DecidableEq, Repr

/-- The all-zero descriptor: the state of a slot after `memset(..., 0, ...)`. -/
def zeroEntry : idt_entry := ⟨0, 0, 0, 0, 0⟩

/-- `struct idt_ptr` of the source: 16-bit `size` and 32-bit `addr`. -/
structure idt_ptr where
  size : Nat
  addr : Nat
deriving DecidableEq, Repr

/-- The table `struct idt_entry idt[256]`, embedded as a total function
from the bounded index type.  The C index parameter is `uint8_t`, whose
values are exactly 0..255, which `Fin 256` captures. -/
def IdtTable : Type := Fin 256 → idt_entry

instance : DecidableEq IdtTable := by
  unfold IdtTable
  infer_instance

/-- The fully cleared table: every slot is `zeroEntry`. -/
def clearedTable : IdtTable := fun _ => zeroEntry

/-- Byte `k` of the little-endian representation of `a`
(`isr_byte_array[k]` in the source, for a 32-bit pointer `k < 4`). -/
def byteAt (a k : Nat) : Nat := a / 2 ^ (8 * k) % 2 ^ 8

/-- `register_isr(void *isr, uint8_t index)` of the source.  It writes all
five fields of slot `index`:
  - the two bytes of `offset_1` are bytes 0 and 1 of the pointer,
  - the two bytes of `offset_2` are bytes 2 and 3 of the pointer,
  - `zero` is set to 0, `selector` to `CODE_SEGMENT`, `type` to `0x8E`.
The 16-bit fields are reassembled from their little-endian bytes. -/
def register_isr (isr : Nat) (index : Fin 256) (idt : IdtTable) : IdtTable :=
  fun i =>
    if i = index then
      { offset_1 := byteAt isr 0 + 2 ^ 8 * byteAt isr 1
        selector := CODE_SEGMENT
        zero := 0
        type := 0x8E
        offset_2 := byteAt isr 2 + 2 ^ 8 * byteAt isr 3 }
    else idt i

/-- Modelled from the spec: the Descriptor Encoder as §4.1 describes it,
with a caller-supplied `attribute_byte` "stored verbatim", `offset_low =
addr & 0xFFFF`, `offset_high = (addr >> 16) & 0xFFFF`, `selector` the
configured code-segment selector and `reserved` forced to zero.  This is
the spec-side definition used only to compare the source's `register_isr`
(which has no attribute parameter) against the spec's words. -/
def encode_spec (addr attr : Nat) : idt_entry :=
  { offset_1 := addr % 2 ^ 16
    selector := CODE_SEGMENT
    zero := 0
    type := attr % 2 ^ 8
    offset_2 := addr / 2 ^ 16 % 2 ^ 16 }

/-- Reading `idt[i]` for an arbitrary (unbounded) index, `none` when the
access would be out of the 256-entry array. -/
def idtRead (t : IdtTable) (i : Nat) : Option idt_entry :=
  if h : i < 256 then some (t ⟨i, h⟩) else none

/-- The kernel state this subsystem mutates: the table, the table pointer
record `idtp`, the CPU's internally cached copy of the record (written by
`lidt`, absent before), and the interrupt-enable flag (set by `sti`). -/
structure KState where
  idt : IdtTable
  idtp : idt_ptr
  cachedIdtp : Option idt_ptr
  interruptsEnabled : Bool

/-- One primitive step of `init_idt`, in the source's vocabulary:
the two `idtp` field assignments, the `memset` over the whole table, the
`lidt` instruction, a `register_isr` call, and the `sti` instruction. -/
inductive Step where
  | setSize (n : Nat)
  | setAddr (a : Nat)
  | clear
  | lidt
  | register (isr : Nat) (index : Fin 256)
  | sti
deriving DecidableEq, Repr

/-- Effect of one step on the kernel state.  `setSize` truncates to the
16-bit `size` field, `setAddr` to the 32-bit `addr` field; `clear` is
`memset(&idt, 0, 256 * sizeof(struct idt_entry))`; `lidt` caches the
current `idtp` in the CPU; `sti` sets the interrupt-enable flag. -/
def execStep (s : KState) : Step → KState
  | .setSize n => { s with idtp := { s.idtp with size := n % 2 ^ 16 } }
  | .setAddr a => { s with idtp := { s.idtp with addr := a % 2 ^ 32 } }
  | .clear => { s with idt := clearedTable }
  | .lidt => { s with cachedIdtp := some s.idtp }
  | .register isr index => { s with idt := register_isr isr index s.idt }
  | .sti => { s with interruptsEnabled := true }

/-- Run a list of steps left to right. -/
def exec (s : KState) : List Step → KState
  | [] => s
  | e :: es => exec (execStep s e) es

/-- `register_exceptions()` of the source: a single call
`register_isr(int08, 0x8)` registering the double-fault handler. -/
def register_exceptions (int08 : Nat) : List Step :=
  [Step.register int08 8]

/-- The body of `init_idt()` as the trace of its statements, in source
order: set `idtp.size`, set `idtp.addr`, `memset` the table, `lidt`,
`register_exceptions()`, register the clock handler at 32, register the
keyboard handler at 33, `sti`.  The handler entry addresses `int08`,
`int32`, `int33` and the table's address `idt_base` are link-time values
external to this file and are taken as parameters. -/
def initSteps (idt_base int08 int32 int33 : Nat) : List Step :=
  [Step.setSize (idt_entry_size * 256 - 1),
   Step.setAddr idt_base,
   Step.clear,
   Step.lidt] ++
  register_exceptions int08 ++
  [Step.register int32 32,
   Step.register int33 33,
   Step.sti]

/-- `init_idt()` of the source: run its statement trace on a state. -/
def init_idt (idt_base int08 int32 int33 : Nat) (s : KState) : KState :=
  exec s (initSteps idt_base int08 int32 int33)

/-- A state whose table is cleared and whose other components are at their
boot defaults; used as a concrete starting point in closed statements. -/
def emptyState : KState :=
  { idt := clearedTable, idtp := ⟨0, 0⟩, cachedIdtp := none, interruptsEnabled := false }

-- Helper lemmas ------------------------------------------------------------

theorem register_isr_apply_self (a : Nat) (v : Fin 256) (t : IdtTable) :
    register_isr a v t v =
      { offset_1 := a % 2 ^ 16
        selector := CODE_SEGMENT
        zero := 0
        type := 0x8E
        offset_2 := a / 2 ^ 16 % 2 ^ 16 } := by
  unfold register_isr byteAt
  simp only [if_pos rfl, idt_entry.mk.injEq]
  norm_num
  omega

theorem register_isr_apply_ne (a : Nat) (v i : Fin 256) (t : IdtTable)
    (h : i ≠ v) : register_isr a v t i = t i := by
  unfold register_isr
  simp [h]

theorem exec_append (s : KState) (l1 l2 : List Step) :
    exec s (l1 ++ l2) = exec (exec s l1) l2 := by
  induction l1 generalizing s with
  | nil => rfl
  | cons e es ih => simp [exec, ih (execStep s e)]

-- Step classifiers used by the temporal claims ------------------------------

def stepIsLidt : Step → Bool
  | .lidt => true
  | _ => false

def stepIsClear : Step → Bool
  | .clear => true
  | _ => false

def stepIsRegister : Step → Bool
  | .register _ _ => true
  | _ => false

def stepIsSti : Step → Bool
  | .sti => true
  | _ => false

/-- The vector of a registration step, when the step is one. -/
def registerVector : Step → Option (Fin 256)
  | .register _ v => some v
  | _ => none

/-- The ordering property claimed of `init_idt`: every registration is
performed before the table-load, i.e. the suffix of the trace starting at
the first `lidt` contains no registration step. -/
def registrationsPrecedeLoad (l : List Step) : Prop :=
  (l.dropWhile (fun s => ! stepIsLidt s)).filter stepIsRegister = []

instance (l : List Step) : Decidable (registrationsPrecedeLoad l) := by
  unfold registrationsPrecedeLoad
  infer_instance

-- The subsystem invariant (claim C10) ---------------------------------------

/-- A slot is either entirely zero (absent) or exactly what the encoder
writes: selector `CODE_SEGMENT`, reserved byte zero, attribute byte 0x8E. -/
def SlotInv (e : idt_entry) : Prop :=
  e = zeroEntry ∨ (e.selector = CODE_SEGMENT ∧ e.zero = 0 ∧ e.type = 0x8E)

instance (e : idt_entry) : Decidable (SlotInv e) := by
  unfold SlotInv
  infer_instance

/-- Every one of the 256 slots satisfies `SlotInv`. -/
def TableInv (t : IdtTable) : Prop := ∀ i : Fin 256, SlotInv (t i)

instance (t : IdtTable) : Decidable (TableInv t) := by
  unfold TableInv
  infer_instance

-- Claim theorems ------------------------------------------------------------

/-- C1: for every vector index v (0..255, the `uint8_t` index type) and
every 32-bit handler entry address a, after `register_isr` writes a into
slot v, the slot's two offset halves concatenated
(`offset_2 << 16 | offset_1`) reconstruct bit-for-bit exactly a. -/
theorem C1_offset_halves_roundtrip (v : Fin 256) (a : Nat) (t : IdtTable)
    (ha : a < 2 ^ 32) :
    (register_isr a v t v).offset_2 * 2 ^ 16 + (register_isr a v t v).offset_1 = a := by
  rw [register_isr_apply_self]
  dsimp only
  norm_num
  omega

/-- Witness for C1 at address 0xDEADBEEF, vector 5, over the cleared table. -/
theorem C1_offset_halves_roundtrip_witness :
    (0xDEADBEEF : Nat) < 2 ^ 32 ∧
    (register_isr 0xDEADBEEF 5 clearedTable 5).offset_2 * 2 ^ 16 +
      (register_isr 0xDEADBEEF 5 clearedTable 5).offset_1 = 0xDEADBEEF :=
  ⟨by norm_num, C1_offset_halves_roundtrip 5 0xDEADBEEF clearedTable (by norm_num)⟩

/-- C3: after the zero-fill (`memset`) in `init_idt` and before any
registration — both after the 3-step prefix ending at the clear and after
the 4-step prefix ending at `lidt`, the last step before the first
registration — every one of the 256 slots is the all-zero entry, so all
five fields are zero and every presence flag reads as absent. -/
theorem C3_cleared_before_registration (s0 : KState) (b i08 i32 i33 : Nat)
    (i : Fin 256) :
    (exec s0 ((initSteps b i08 i32 i33).take 3)).idt i = zeroEntry ∧
    (exec s0 ((initSteps b i08 i32 i33).take 4)).idt i = zeroEntry :=
  ⟨rfl, rfl⟩

/-- C4: `register_isr a v` mutates exactly the one slot at index v: every
slot with a different index is unchanged; in particular, after the three
registrations of the initialization sequence (vectors 8, 32, 33) on the
cleared table, every other slot is still byte-for-byte the zero entry. -/
theorem C4_register_isr_frame (a a8 a32 a33 : Nat) (v i j : Fin 256)
    (t : IdtTable) (hiv : i ≠ v) (h8 : j ≠ 8) (h32 : j ≠ 32) (h33 : j ≠ 33) :
    register_isr a v t i = t i ∧
    register_isr a33 33 (register_isr a32 32 (register_isr a8 8 clearedTable)) j
      = zeroEntry := by
  refine ⟨register_isr_apply_ne a v i t hiv, ?_⟩
  rw [register_isr_apply_ne _ _ _ _ h33, register_isr_apply_ne _ _ _ _ h32,
    register_isr_apply_ne _ _ _ _ h8]
  rfl

/-- Witness for C4 at concrete distinct indices (i = 3 ≠ v = 8, j = 200). -/
theorem C4_register_isr_frame_witness :
    ((3 : Fin 256) ≠ 8 ∧ (200 : Fin 256) ≠ 8 ∧ (200 : Fin 256) ≠ 32 ∧
      (200 : Fin 256) ≠ 33) ∧
    (register_isr 0xAA 8 clearedTable 3 = clearedTable 3 ∧
      register_isr 3 33 (register_isr 2 32 (register_isr 1 8 clearedTable)) 200
        = zeroEntry) :=
  ⟨⟨by decide, by decide, by decide, by decide⟩,
    C4_register_isr_frame 0xAA 1 2 3 8 3 200 clearedTable
      (by decide) (by decide) (by decide) (by decide)⟩

/-- C9: `register_isr` signals no error and performs no runtime range
check; the `uint8_t` index type bounds every representable vector index
below the 256-entry table size, so the table access `idt[index]` is in
bounds for every possible index value and reading the accessed slot back
always succeeds. -/
theorem C9_index_in_bounds (v : Fin 256) :
    v.val < IDT_ENTRIES ∧
    ∀ (a : Nat) (t : IdtTable), (idtRead (register_isr a v t) v.val).isSome = true := by
  refine ⟨?_, ?_⟩
  · simp [IDT_ENTRIES]
  · intro a t
    simp [idtRead, v.isLt]

/-- C10: the invariant kept by every operation of the subsystem: starting
from any state whose 256 slots are each either all-zero or encoder-written
(selector `CODE_SEGMENT`, reserved zero, attribute byte exactly 0x8E),
any sequence of the subsystem's steps — including any number of
`register_isr` calls, which take no attribute parameter and hardcode both
fields — preserves that invariant for every slot. -/
theorem C10_invariant_preserved (s : KState) (l : List Step)
    (h : TableInv s.idt) : TableInv (exec s l).idt := by
  induction l generalizing s with
  | nil => exact h
  | cons e es ih =>
    refine ih (execStep s e) ?_
    cases e with
    | setSize n => exact h
    | setAddr a => exact h
    | clear => intro i; exact Or.inl rfl
    | lidt => exact h
    | sti => exact h
    | register a v =>
      intro i
      by_cases hiv : i = v
      · subst hiv
        right
        rw [show (execStep s (Step.register a i)).idt = register_isr a i s.idt from rfl,
          register_isr_apply_self]
        exact ⟨rfl, rfl, rfl⟩
      · rw [show (execStep s (Step.register a v)).idt = register_isr a v s.idt from rfl,
          register_isr_apply_ne a v i s.idt hiv]
        exact h i

set_option maxRecDepth 4000 in
/-- Witness for C10: the cleared boot state satisfies the invariant, and it
still holds after a concrete registration step. -/
theorem C10_invariant_preserved_witness :
    TableInv emptyState.idt ∧
    TableInv (exec emptyState [Step.register 0xCAFE 8]).idt :=
  ⟨by decide, C10_invariant_preserved emptyState [Step.register 0xCAFE 8] (by decide)⟩

-- idtp frame helpers (claim C5) ---------------------------------------------

/-- Steps that leave the table pointer record `idtp` untouched: everything
except the two `idtp` field assignments. -/
def stepKeepsIdtp : Step → Bool
  | .setSize _ => false
  | .setAddr _ => false
  | _ => true

theorem exec_keeps_idtp (s : KState) (l : List Step)
    (h : ∀ e ∈ l, stepKeepsIdtp e = true) : (exec s l).idtp = s.idtp := by
  induction l generalizing s with
  | nil => rfl
  | cons e es ih =>
    have hes : ∀ x ∈ es, stepKeepsIdtp x = true :=
      fun x hx => h x (List.mem_cons_of_mem e hx)
    rw [show exec s (e :: es) = exec (execStep s e) es from rfl, ih (execStep s e) hes]
    have he : stepKeepsIdtp e = true := h e (List.mem_cons_self e es)
    cases e <;> simp_all [execStep, stepKeepsIdtp]

/-- The slot `register_isr` writes equals the spec's Descriptor Encoder
output exactly at the default attribute byte 0x8E. -/
theorem register_isr_matches_default_encode (a : Nat) (v : Fin 256) (t : IdtTable) :
    register_isr a v t v = encode_spec a 0x8E := by
  rw [register_isr_apply_self]
  unfold encode_spec
  norm_num

/-- The presence flag of a descriptor: bit 7 of the attribute byte. -/
def present (e : idt_entry) : Bool := e.type / 2 ^ 7 % 2 == 1

-- Remaining claim theorems --------------------------------------------------

/-- C2 counterexample: on the concrete initialization trace, the suffix
beginning at the table-load (`lidt`) step still contains registration
steps, so the claimed ordering "every fixed-vector registration is
performed before the lidt" is false of `init_idt` as written: the source
issues `lidt` first and registers vectors 8, 32, 33 afterwards. -/
theorem C2_counterexample : ¬ registrationsPrecedeLoad (initSteps 0 1 2 3) := by
  decide

/-- C2 amended: in `init_idt` the Cleared state precedes the table-load
and the table-load precedes every registration: before the first `lidt`
there is exactly the one clear step and no registration; the registrations
after the load are exactly vectors 8, 32, 33 in that order; and the
unmask (`sti`) is the final step — safe only because interrupts stay
masked until then. The preserved hard ordering is
clear → load table → populate all fixed vectors → unmask. -/
theorem C2_clear_load_populate_unmask (b i08 i32 i33 : Nat) :
    ((initSteps b i08 i32 i33).takeWhile (fun s => ! stepIsLidt s)).filter stepIsClear
      = [Step.clear] ∧
    ((initSteps b i08 i32 i33).takeWhile (fun s => ! stepIsLidt s)).filter stepIsRegister
      = [] ∧
    ((initSteps b i08 i32 i33).dropWhile (fun s => ! stepIsLidt s)).filterMap registerVector
      = [8, 32, 33] ∧
    (initSteps b i08 i32 i33).getLast? = some Step.sti :=
  ⟨rfl, rfl, rfl, rfl⟩

/-- C5: after `init_idt`, the table pointer record holds limit (`size`)
exactly 2047 = 8 × 256 − 1 and base (`addr`) the table's 32-bit location;
the two `idtp` assignments are the first two steps, and every later point
of the sequence (every prefix of length ≥ 2) shows the same unchanged
record: no subsequent step of the subsystem modifies either field. -/
theorem C5_idtp_limit_base (s0 : KState) (b i08 i32 i33 : Nat) :
    (init_idt b i08 i32 i33 s0).idtp = ⟨2047, b % 2 ^ 32⟩ ∧
    ∀ n : Nat,
      (exec s0 ((initSteps b i08 i32 i33).take (2 + n))).idtp = ⟨2047, b % 2 ^ 32⟩ := by
  have key : ∀ n : Nat,
      (exec s0 ((initSteps b i08 i32 i33).take (2 + n))).idtp = ⟨2047, b % 2 ^ 32⟩ := by
    intro n
    rw [List.take_add, exec_append]
    rw [exec_keeps_idtp]
    · show (execStep (execStep s0 (Step.setSize (idt_entry_size * 256 - 1)))
        (Step.setAddr b)).idtp = _
      simp [execStep, idt_entry_size]
    · intro e he
      have hmem := List.take_subset n _ he
      simp only [initSteps, register_exceptions, List.cons_append, List.nil_append,
        List.drop_succ_cons, List.drop_zero, List.mem_cons, List.not_mem_nil,
        or_false] at hmem
      rcases hmem with h | h | h | h | h | h <;> subst h <;> rfl
  refine ⟨?_, key⟩
  have h6 := key 6
  rw [show (initSteps b i08 i32 i33).take (2 + 6) = initSteps b i08 i32 i33 from rfl] at h6
  exact h6

/-- C6 counterexample: the claim that the stored attribute byte is the
caller-supplied attribute byte verbatim fails at the concrete instance
with caller-chosen attribute byte 0: the slot `register_isr` writes is not
the spec encoder's output for attribute 0, because the code hardcodes
0x8E and offers no attribute parameter. -/
theorem C6_counterexample :
    ¬ (register_isr 0 0 clearedTable 0 = encode_spec 0 0) := by
  decide

/-- C6 amended: for every registration performed by `register_isr`, the
written slot's selector equals the externally configured code-segment
selector, its reserved byte is forced to zero, and the stored attribute
byte is the hardcoded constant 0x8E (presence set, privilege = ring 0,
type = 32-bit interrupt gate) — the system's default; `register_isr`
takes no attribute parameter, and the written slot coincides with the
spec's encoder exactly at that default attribute byte. -/
theorem C6_selector_reserved_attribute (a : Nat) (v : Fin 256) (t : IdtTable) :
    (register_isr a v t v).selector = CODE_SEGMENT ∧
    (register_isr a v t v).zero = 0 ∧
    (register_isr a v t v).type = 0x8E ∧
    register_isr a v t v = encode_spec a 0x8E := by
  rw [register_isr_matches_default_encode]
  exact ⟨rfl, by norm_num [encode_spec], by norm_num [encode_spec], rfl⟩

/-- C7: the interrupt unmask (`sti`) is the final step of `init_idt`: it
occurs exactly once, the suffix of the trace starting at the first `sti`
is just that one step, and the last element of the trace is `sti` — so it
comes after the table-load and after every handler registration. -/
theorem C7_sti_final_step (b i08 i32 i33 : Nat) :
    ((initSteps b i08 i32 i33).filter stepIsSti).length = 1 ∧
    (initSteps b i08 i32 i33).dropWhile (fun s => ! stepIsSti s) = [Step.sti] ∧
    (initSteps b i08 i32 i33).getLast? = some Step.sti :=
  ⟨rfl, rfl, rfl⟩

/-- C8: `init_idt` registers the double-fault handler at vector 8 (via
`register_exceptions`), the clock handler at vector 32 and the keyboard
handler at vector 33: when it completes, each of those three slots holds
the corresponding handler address split across its offset halves with
attribute byte 0x8E, and each slot's presence bit is set (non-absent). -/
theorem C8_fixed_vectors_populated (s0 : KState) (b i08 i32 i33 : Nat) :
    (init_idt b i08 i32 i33 s0).idt 8 = encode_spec i08 0x8E ∧
    (init_idt b i08 i32 i33 s0).idt 32 = encode_spec i32 0x8E ∧
    (init_idt b i08 i32 i33 s0).idt 33 = encode_spec i33 0x8E ∧
    present ((init_idt b i08 i32 i33 s0).idt 8) = true ∧
    present ((init_idt b i08 i32 i33 s0).idt 32) = true ∧
    present ((init_idt b i08 i32 i33 s0).idt 33) = true := by
  have hidt : (init_idt b i08 i32 i33 s0).idt
      = register_isr i33 33 (register_isr i32 32 (register_isr i08 8 clearedTable)) := rfl
  have h8 : (init_idt b i08 i32 i33 s0).idt 8 = encode_spec i08 0x8E := by
    rw [hidt, register_isr_apply_ne _ _ _ _ (by decide),
      register_isr_apply_ne _ _ _ _ (by decide), register_isr_matches_default_encode]
  have h32 : (init_idt b i08 i32 i33 s0).idt 32 = encode_spec i32 0x8E := by
    rw [hidt, register_isr_apply_ne _ _ _ _ (by decide),
      register_isr_matches_default_encode]
  have h33 : (init_idt b i08 i32 i33 s0).idt 33 = encode_spec i33 0x8E := by
    rw [hidt, register_isr_matches_default_encode]
  refine ⟨h8, h32, h33, ?_, ?_, ?_⟩ <;>
    simp [h8, h32, h33, present, encode_spec]
